import Mathlib

/-!
Verification of the snapshot container format and multi-strategy resolver
implemented in `runtime/bin/snapshot_utils.cc`.

The development is a shallow embedding of the source file:

* a file on disk is modelled as `WFile` (a byte-content function plus a
  length); writes (`File::WriteFully` at the tracked position) become
  `writeBytesAt`, reads become `readBytes`;
* machine integers are modelled as `Nat`/`Int` with explicit two's-complement
  conversion (`toInt64`) where the source reinterprets raw bytes as `int64_t`;
* environment effects that the source merely branches on (opening a file,
  `File::Map` failure, `dlopen`/`dlsym` results, the generic ELF loader)
  become explicit oracle parameters, so each function is a pure function of
  its inputs and the oracles;
* abrupt process termination (`FATAL1`, `ErrorExit`) is modelled as a
  distinguished result constructor (`ReadResult.fatal`, `Except.error`),
  and a `nullptr` "soft miss" as `ReadResult.softNull` / `Option.none`.
-/

/-! ## Page-size arithmetic (`Utils::RoundUp`, `kAppSnapshotPageSize`) -/

/-- Size of the blob container header: `5 * kInt64Size` = 40 bytes
(`kAppSnapshotHeaderSize` in the source). -/
def kAppSnapshotHeaderSize : Nat := 40

/-- Page size used for section alignment: `16 * KB` = 16384 bytes
(`kAppSnapshotPageSize` in the source). -/
def kAppSnapshotPageSize : Nat := 16384

/-- Natural-number version of `Utils::RoundUp(x, n)` for a positive modulus:
round `x` up to the next multiple of `n`. -/
def roundUpN (x n : Nat) : Nat := ((x + n - 1) / n) * n

/-- Integer version of `Utils::RoundUp(x, n)` (the source computes it as
`RoundDown(x + n - 1, n)` where `RoundDown` masks the low bits of a
two's-complement value, i.e. takes the floor multiple; for positive `n` this
is `y - y mod n` with a non-negative remainder). -/
def roundUpI (x n : Int) : Int := (x + n - 1) - (x + n - 1) % n

/-! ## Byte-level integer codec

`WriteInt64` stores an `int64_t` as its 8 in-memory (little-endian) bytes;
the reader reinterprets 8 raw bytes as an `int64_t`.  `natLE k n` is the `k`
little-endian bytes of `n`, `leToNat` decodes them as an unsigned value, and
`toInt64` reinterprets an unsigned 64-bit value as a signed one. -/

/-- Little-endian byte encoding of `n` in `k` bytes (truncating above
`256 ^ k`, as storing into a fixed-width integer does). -/
def natLE : Nat → Nat → List Nat
  | 0, _ => []
  | k + 1, n => (n % 256) :: natLE k (n / 256)

/-- Decode a little-endian byte list as an unsigned value. -/
def leToNat : List Nat → Nat
  | [] => 0
  | b :: bs => b + 256 * leToNat bs

/-- Reinterpret an unsigned 64-bit value as a signed (two's-complement)
`int64_t`. -/
def toInt64 (n : Nat) : Int :=
  if n < 2 ^ 63 then (n : Int) else (n : Int) - 2 ^ 64

/-! ## Files

A file is a total byte-content function together with a length.  Unwritten
positions read as zero (sparse-file semantics of writing past end-of-file).
-/

/-- A file: byte content (total, zero off the written range) and length. -/
@[ext]
structure WFile where
  content : Nat → Nat
  len : Nat

/-- The empty (just-truncated) file. -/
def emptyWFile : WFile := ⟨fun _ => 0, 0⟩

/-- One `File::WriteFully(bs)` at absolute position `p`: overwrites
`[p, p + bs.length)`, extends the file (zero-filling any gap) if the write
goes past end-of-file.  Writing zero bytes changes nothing. -/
def writeBytesAt (f : WFile) (p : Nat) (bs : List Nat) : WFile :=
  ⟨fun i => if p ≤ i ∧ i < p + bs.length then bs.getD (i - p) 0 else f.content i,
   if bs.isEmpty then f.len else max f.len (p + bs.length)⟩

/-- Read `n` bytes starting at absolute position `p` (used both for
`ReadFully` and for the content exposed by a successful `File::Map`). -/
def readBytes (f : WFile) (p n : Nat) : List Nat :=
  (List.range n).map (fun i => f.content (p + i))

/-- Bytes exposed by mapping `size` bytes at (possibly `int64`) offset
`pos`; only meaningful for non-negative arguments, which is the only case in
which a `File::Map` call can have succeeded. -/
def mappedBytes (f : WFile) (pos size : Int) : List Nat :=
  (List.range size.toNat).map (fun i => f.content (pos.toNat + i))

/-- Build a concrete file from an explicit byte list. -/
def mkFile (bs : List Nat) : WFile := ⟨fun i => bs.getD i 0, bs.length⟩

/-! ## Fixed constants

`appjit_magic_number` lives in `bin/dartutils.{h,cc}`, which is not part of
the sources under verification.  Modelled from the spec: the spec fixes only
that it is an 8-byte fixed constant ("magic (8 bytes, fixed constant)"); we
use the SDK's concrete value.  No claim depends on the particular bytes,
only on match/mismatch against this fixed constant. -/
def appjitMagicNumber : List Nat := [0xdc, 0xdc, 0xf6, 0xf6, 0x00, 0x00, 0x00, 0x00]

/-! ## Result type for functions that can terminate the process

`ReadResult.softNull` models a `nullptr` return (soft miss), `.fatal`
models `FATAL1`/`ErrorExit` (the process terminates with a diagnostic), and
`.ok` a successfully constructed `AppSnapshot*`. -/
inductive ReadResult (α : Type) where
  | softNull : ReadResult α
  | fatal : ReadResult α
  | ok : α → ReadResult α
deriving DecidableEq

/-! ## Blob container reader (`TryReadAppSnapshotBlobs`, lines 81–157)

The result of a successful read: the four section buffers exposed by
`MappedAppSnapshot::SetBuffers`; `none` models a buffer pointer left null
(its mapping was absent because the declared size was zero). -/
structure BlobHandle where
  vmData : Option (List Nat)
  vmInstr : Option (List Nat)
  isoData : Option (List Nat)
  isoInstr : Option (List Nat)
deriving DecidableEq

/-- Decoded `header[1]` (vm-data size) of the blob header found at
file position `pos0`; the source reads the 40-byte header and
reinterprets bytes 8–15 as an `int64_t`. -/
def blobVmDataSize (f : WFile) (pos0 : Nat) : Int :=
  toInt64 (leToNat (readBytes f (pos0 + 8) 8))

/-- Decoded `header[2]` (vm-instructions size). -/
def blobVmInstrSize (f : WFile) (pos0 : Nat) : Int :=
  toInt64 (leToNat (readBytes f (pos0 + 16) 8))

/-- Decoded `header[3]` (isolate-data size). -/
def blobIsoDataSize (f : WFile) (pos0 : Nat) : Int :=
  toInt64 (leToNat (readBytes f (pos0 + 24) 8))

/-- Decoded `header[4]` (isolate-instructions size). -/
def blobIsoInstrSize (f : WFile) (pos0 : Nat) : Int :=
  toInt64 (leToNat (readBytes f (pos0 + 32) 8))

/-- The four section positions computed by `TryReadAppSnapshotBlobs`
(lines 98–116 of the source). -/
structure BlobLayout where
  vmDataPos : Int
  vmInstrPos : Int
  isoDataPos : Int
  isoInstrPos : Int
deriving DecidableEq

/-- Section-position computation of `TryReadAppSnapshotBlobs`:
`afterHeader` is `file->Position()` just after the header was read.
A position is rounded up to the page size unconditionally for the two data
sections, but only when the corresponding size is non-zero for the two
instruction sections (mirroring the `if (... != 0)` guards in the source). -/
def blobLayout (afterHeader vmDataSize vmInstrSize isoDataSize isoInstrSize : Int) :
    BlobLayout :=
  let vmDataPos := roundUpI afterHeader (kAppSnapshotPageSize : Int)
  let vmInstrPos0 := vmDataPos + vmDataSize
  let vmInstrPos :=
    if vmInstrSize ≠ 0 then roundUpI vmInstrPos0 (kAppSnapshotPageSize : Int) else vmInstrPos0
  let isoDataPos := roundUpI (vmInstrPos + vmInstrSize) (kAppSnapshotPageSize : Int)
  let isoInstrPos0 := isoDataPos + isoDataSize
  let isoInstrPos :=
    if isoInstrSize ≠ 0 then roundUpI isoInstrPos0 (kAppSnapshotPageSize : Int) else isoInstrPos0
  ⟨vmDataPos, vmInstrPos, isoDataPos, isoInstrPos⟩

/-- The layout computed for a given file (header at `pos0`). -/
def blobLayoutOf (f : WFile) (pos0 : Nat) : BlobLayout :=
  blobLayout ((pos0 : Int) + 40) (blobVmDataSize f pos0) (blobVmInstrSize f pos0)
    (blobIsoDataSize f pos0) (blobIsoInstrSize f pos0)

/-- `TryReadAppSnapshotBlobs(script_name, file)` with the file at position
`pos0`.  `mapFails pos size` is the environment oracle telling whether the
`File::Map` call at that position/size fails (in which case the source
raises `FATAL1`, modelled as `.fatal`).  The source returns `nullptr` when
fewer than 40 bytes remain or the magic does not match; otherwise it decodes
the four sizes, computes the page-aligned layout, and maps every section
whose declared size is non-zero, leaving the other section pointers null. -/
def tryReadAppSnapshotBlobs (mapFails : Int → Int → Bool) (f : WFile) (pos0 : Nat) :
    ReadResult BlobHandle :=
  if f.len < pos0 + kAppSnapshotHeaderSize then .softNull
  else if readBytes f pos0 8 ≠ appjitMagicNumber then .softNull
  else
    let s1 := blobVmDataSize f pos0
    let s2 := blobVmInstrSize f pos0
    let s3 := blobIsoDataSize f pos0
    let s4 := blobIsoInstrSize f pos0
    let L := blobLayoutOf f pos0
    if s1 ≠ 0 ∧ mapFails L.vmDataPos s1 = true then .fatal
    else if s2 ≠ 0 ∧ mapFails L.vmInstrPos s2 = true then .fatal
    else if s3 ≠ 0 ∧ mapFails L.isoDataPos s3 = true then .fatal
    else if s4 ≠ 0 ∧ mapFails L.isoInstrPos s4 = true then .fatal
    else
      .ok ⟨if s1 = 0 then none else some (mappedBytes f L.vmDataPos s1),
           if s2 = 0 then none else some (mappedBytes f L.vmInstrPos s2),
           if s3 = 0 then none else some (mappedBytes f L.isoDataPos s3),
           if s4 = 0 then none else some (mappedBytes f L.isoInstrPos s4)⟩

/-! ## Blob container writer (`Snapshot::WriteAppSnapshot`, lines 550–612)

The source opens the file, writes the magic and the four sizes *without
checking the results of those five writes*, then writes the four sections at
page-aligned positions; only the section writes are checked
(`ErrorExit` on failure).  The instruction sections are written (and their
positions aligned) only when their size is non-zero. -/

/-- Environment oracle for one `WriteAppSnapshot` run: whether the open and
each individual `WriteFully` call succeeds.  (In the C++ a zero-length
`WriteFully` cannot fail; the oracle is total regardless, which only makes
the model's failure cases a superset.) -/
structure WriteOracle where
  okOpen : Bool
  okMagic : Bool
  okVmDataSizeField : Bool
  okVmInstrSizeField : Bool
  okIsoDataSizeField : Bool
  okIsoInstrSizeField : Bool
  okVmData : Bool
  okVmInstr : Bool
  okIsoData : Bool
  okIsoInstr : Bool
deriving DecidableEq

/-- The all-successful environment. -/
def allOkWrites : WriteOracle :=
  ⟨true, true, true, true, true, true, true, true, true, true⟩

/-- One unchecked `WriteFully` whose result the source ignores: on success
the bytes are written at the current position and the position advances; on
failure the run simply continues (the C++ leaves content and position
indeterminate in that case; no theorem below depends on the content of a
file produced by a failed run). -/
def uncheckedWrite (ok : Bool) (fp : WFile × Nat) (bs : List Nat) : WFile × Nat :=
  if ok then (writeBytesAt fp.1 fp.2 bs, fp.2 + bs.length) else fp

/-- `SetPosition(RoundUp(Position, page))` followed by `WriteFully(bs)`. -/
def alignedWrite (fp : WFile × Nat) (bs : List Nat) : WFile × Nat :=
  (writeBytesAt fp.1 (roundUpN fp.2 kAppSnapshotPageSize) bs,
   roundUpN fp.2 kAppSnapshotPageSize + bs.length)

/-- The guarded form used for the two instruction sections: the block
(align + write) runs only when the buffer size is non-zero. -/
def alignedWriteIfPresent (fp : WFile × Nat) (bs : List Nat) : WFile × Nat :=
  if bs.length ≠ 0 then alignedWrite fp bs else fp

/-- `Snapshot::WriteAppSnapshot`: returns the produced file, or `.error ()`
when the source calls `ErrorExit` (open failure or a failed *checked*
section write).  The five header writes are issued but their results are
ignored, exactly as in the source. -/
def writeAppSnapshot (o : WriteOracle) (vmData vmInstr isoData isoInstr : List Nat) :
    Except Unit WFile :=
  if o.okOpen = false then .error () else
  let fp : WFile × Nat := (emptyWFile, 0)
  let fp := uncheckedWrite o.okMagic fp appjitMagicNumber
  let fp := uncheckedWrite o.okVmDataSizeField fp (natLE 8 vmData.length)
  let fp := uncheckedWrite o.okVmInstrSizeField fp (natLE 8 vmInstr.length)
  let fp := uncheckedWrite o.okIsoDataSizeField fp (natLE 8 isoData.length)
  let fp := uncheckedWrite o.okIsoInstrSizeField fp (natLE 8 isoInstr.length)
  let fp := alignedWrite fp vmData
  if o.okVmData = false then .error () else
  let fp := alignedWriteIfPresent fp vmInstr
  if vmInstr.length ≠ 0 ∧ o.okVmInstr = false then .error () else
  let fp := alignedWrite fp isoData
  if o.okIsoData = false then .error () else
  let fp := alignedWriteIfPresent fp isoInstr
  if isoInstr.length ≠ 0 ∧ o.okIsoInstr = false then .error () else
  .ok fp.1

/-- The section buffer a reader must report for a written buffer: null
(`none`) exactly when the buffer was absent (size 0). -/
def presentOf (bs : List Nat) : Option (List Nat) :=
  if bs.length = 0 then none else some bs

/-- The size set of the round-trip claim. -/
def snapshotSizeChoices : List Nat := [0, 1, 16383, 16384, 16385]

/-! ## Appended-trailer probe (`Snapshot::TryReadAppendedAppSnapshotElf`,
lines 351–384, generic non-Mach-O branch)

The source seeks to `Length() - 16` (failing, hence returning `nullptr`,
when the file is shorter than the 16-byte trailer), reads the trailer as two
`int64_t`s, converts the first through `LittleEndianToHost64` into a
`uint64_t appended_offset`, and returns `nullptr` when the trailing 8 bytes
do not match the magic or `appended_offset <= 0` (which, on the unsigned
value, means `appended_offset == 0`).  Otherwise it hands
`(path, appended_offset)` to the ELF loader; `some off` models that call. -/
def tryReadAppendedAppSnapshotElf (f : WFile) : Option Nat :=
  if f.len < 16 then none
  else
    let off := leToNat (readBytes f (f.len - 16) 8)
    let mg := readBytes f (f.len - 8) 8
    if mg ≠ appjitMagicNumber ∨ off = 0 then none
    else some off

/-! ## Mach-O embedded-section walker
(`Snapshot::TryReadAppendedAppSnapshotElfFromMachO`, lines 244–348)

The walk is modelled at structure level: the file presents a Mach-O magic
and a list of load commands, each carrying its `cmd` tag and (for
segment-type commands) its sections with their 16-byte names and
(offset, size) file ranges.  This matches the byte-level source for any
file whose `cmdsize` fields are consistent with its section counts, which
is the only case in which the source's manual cursor arithmetic reads the
structures it intends to read. -/

/-- Mach-O magic constants (from `platform/mach_o.h`, not under the sources
being verified; modelled from the spec, which requires a platform executable
magic in 32/64-bit, either byte order — these are the standard values). -/
def MH_MAGIC : Nat := 0xfeedface
/-- Byte-swapped 32-bit Mach-O magic. -/
def MH_CIGAM : Nat := 0xcefaedfe
/-- 64-bit Mach-O magic. -/
def MH_MAGIC_64 : Nat := 0xfeedfacf
/-- Byte-swapped 64-bit Mach-O magic. -/
def MH_CIGAM_64 : Nat := 0xcffaedfe
/-- Segment load-command tag (32-bit). -/
def LC_SEGMENT : Nat := 0x1
/-- Segment load-command tag (64-bit). -/
def LC_SEGMENT_64 : Nat := 0x19

/-- `kMachOAppSnapshotSegmentName` from the source. -/
def kMachOAppSnapshotSegmentName : String := "__CUSTOM"

/-- `kMachOAppSnapshotSectionName` from the source. -/
def kMachOAppSnapshotSectionName : String := "__dart_app_snap"

/-- A `section_64` entry as far as the walker inspects it. -/
structure MachOSection where
  segname : String
  sectname : String
  offset : Nat
  size : Nat
deriving DecidableEq

/-- A load command: its `cmd` tag and the sections listed under it
(`nsects` entries of a `segment_command_64`). -/
structure MachOCommand where
  cmd : Nat
  sections : List MachOSection
deriving DecidableEq

/-- A Mach-O container at structure level: header magic, load commands, and
raw byte content (for the copy of the matched section's byte range). -/
structure MachOFile where
  magic : Nat
  commands : List MachOCommand
  content : Nat → Nat

/-- Result of the platform-specific probe.  `.notMachO`, `.swapped`,
`.bits32` and `.noMatch` all model `nullptr` returns of the source —
separated so that a rejection that happens before the load-command walk
(`.swapped`, `.bits32`) is distinguishable from exhausting the walk
(`.noMatch`).  `.delegated buf` models handing the copied bytes of the
matched section to `Dart_LoadELF_Memory`. -/
inductive MachOProbeResult where
  | notMachO : MachOProbeResult
  | swapped : MachOProbeResult
  | bits32 : MachOProbeResult
  | noMatch : MachOProbeResult
  | delegated : List Nat → MachOProbeResult
deriving DecidableEq

/-- The inner section loop: the source reads `nsects` `section_64` records
and takes the first whose segment command is `LC_SEGMENT_64` and whose
`segname`/`sectname` equal the two fixed constants. -/
def findInSections (cmd : Nat) : List MachOSection → Option MachOSection
  | [] => none
  | s :: rest =>
    if cmd = LC_SEGMENT_64 ∧ s.segname = kMachOAppSnapshotSegmentName ∧
        s.sectname = kMachOAppSnapshotSectionName then some s
    else findInSections cmd rest

/-- The outer load-command loop: non-segment commands are skipped by
`cmdsize`; segment commands have their section lists scanned. -/
def findSnapshotSection : List MachOCommand → Option MachOSection
  | [] => none
  | c :: rest =>
    if c.cmd ≠ LC_SEGMENT ∧ c.cmd ≠ LC_SEGMENT_64 then findSnapshotSection rest
    else
      match findInSections c.cmd c.sections with
      | some s => some s
      | none => findSnapshotSection rest

/-- `Snapshot::TryReadAppendedAppSnapshotElfFromMachO`: reject non-Mach-O
magic, then byte-swapped headers, then 32-bit headers — all before touching
any load command — and otherwise walk the load commands for the named
section, copying exactly `section.size` bytes from `section.offset` for the
ELF-loader delegate. -/
def tryReadAppendedAppSnapshotElfFromMachO (m : MachOFile) : MachOProbeResult :=
  if ¬(m.magic = MH_MAGIC_64 ∨ m.magic = MH_CIGAM_64 ∨ m.magic = MH_MAGIC ∨
      m.magic = MH_CIGAM) then .notMachO
  else if m.magic = MH_CIGAM ∨ m.magic = MH_CIGAM_64 then .swapped
  else if ¬(m.magic = MH_MAGIC_64 ∨ m.magic = MH_CIGAM_64) then .bits32
  else
    match findSnapshotSection m.commands with
    | some s => .delegated ((List.range s.size).map (fun i => m.content (s.offset + i)))
    | none => .noMatch

/-- Spec-side characterization used to state claim C7: the flattened
(cmd, section) list of all load commands in order. -/
def machOAllSections (cmds : List MachOCommand) : List (Nat × MachOSection) :=
  cmds.flatMap (fun c => c.sections.map (fun s => (c.cmd, s)))

/-- Spec-side match predicate of claim C7. -/
def machOSectionMatches (p : Nat × MachOSection) : Bool :=
  p.1 = LC_SEGMENT_64 ∧ p.2.segname = kMachOAppSnapshotSegmentName ∧
    p.2.sectname = kMachOAppSnapshotSectionName

/-- A correctly named (segment, section) pair exists somewhere in the load
commands (the "even if a correctly named pair exists" hypothesis of C7). -/
def hasNamedSection (cmds : List MachOCommand) : Prop :=
  ∃ c ∈ cmds, ∃ s ∈ c.sections,
    s.segname = kMachOAppSnapshotSegmentName ∧ s.sectname = kMachOAppSnapshotSectionName

/-! ## Dynamic-library strategy (`TryReadAppSnapshotDynamicLibrary`,
lines 419–449)

Oracles: whether `LoadDynamicLibrary` succeeds, and the pointer each of the
four `ResolveSymbolInDynamicLibrary` calls yields (`none` = null).  The two
isolate symbols are checked (`FATAL1` when null); the two vm symbols are
not. -/
structure DylibHandle where
  vmData : Option Nat
  vmInstr : Option Nat
  isoData : Option Nat
  isoInstr : Option Nat
deriving DecidableEq

/-- `TryReadAppSnapshotDynamicLibrary`. -/
def tryReadAppSnapshotDynamicLibrary (libraryOpens : Bool)
    (vmDataSym vmInstrSym isoDataSym isoInstrSym : Option Nat) : ReadResult DylibHandle :=
  if libraryOpens = false then .softNull
  else
    match isoDataSym with
    | none => .fatal
    | some _ =>
      match isoInstrSym with
      | none => .fatal
      | some _ => .ok ⟨vmDataSym, vmInstrSym, isoDataSym, isoInstrSym⟩

/-! ## Resolver (`Snapshot::TryReadAppSnapshot`, lines 476–526)

Modelled for the precompiled-runtime configuration the spec describes, in
which all three strategies exist.  Each strategy's outcome is an oracle
(`Option Nat`, a handle id or null); the resolver's own control flow — the
URI decode, the regular-file check, the fixed order, first-match-wins, the
`force_load_elf_from_memory` skip — is the code under verification.  The
result carries the list of strategies actually invoked, in order. -/
inductive FileType where
  | file
  | directory
  | pipe
  | link
  | doesNotExist
deriving DecidableEq

/-- The three strategies the resolver can invoke. -/
inductive Strategy where
  | blobs
  | dylib
  | elf
deriving DecidableEq

/-- `Snapshot::TryReadAppSnapshot`: returns the winning handle (or none)
together with the strategies probed, in order. -/
def tryReadAppSnapshot (decodeUri uriToPathOk : Bool) (fileType : FileType)
    (forceLoadElfFromMemory : Bool) (blobs dylib elf : Option Nat) :
    Option Nat × List Strategy :=
  if decodeUri = true ∧ uriToPathOk = false then (none, [])
  else if fileType ≠ FileType.file then (none, [])
  else
    match blobs with
    | some h => (some h, [Strategy.blobs])
    | none =>
      if forceLoadElfFromMemory = false then
        match dylib with
        | some h => (some h, [Strategy.blobs, Strategy.dylib])
        | none => (elf, [Strategy.blobs, Strategy.dylib, Strategy.elf])
      else (elf, [Strategy.blobs, Strategy.elf])

/-! ## AOT detection (`Snapshot::IsAOTSnapshot`, lines 708–725)

Opens the file (false when that fails), returns false when shorter than the
4-byte ELF prefix, and otherwise compares the first 4 bytes against
`{0x7F, 'E', 'L', 'F'}` (all four bytes are non-zero, so the `strncmp` in
the source is exactly 4-byte equality). -/
def elfHeaderBytes : List Nat := [0x7F, 0x45, 0x4C, 0x46]

/-- `Snapshot::IsAOTSnapshot`; the argument is `none` when the open fails. -/
def isAOTSnapshot : Option WFile → Bool
  | none => false
  | some f =>
    if f.len < 4 then false
    else decide (readBytes f 0 4 = elfHeaderBytes)

/-! ## Derived layout of a written container, and concrete instances used
by the claim theorems -/

/-- Position of the vm-data section as the writer places it:
`RoundUp(40, page)`. -/
def vmDataWritePos : Nat := roundUpN 40 kAppSnapshotPageSize

/-- Position of the vm-instructions section as the writer places it (the
round-up is skipped for an absent section). -/
def vmInstrWritePos (a b : List Nat) : Nat :=
  if b.length ≠ 0 then roundUpN (vmDataWritePos + a.length) kAppSnapshotPageSize
  else vmDataWritePos + a.length

/-- Position of the isolate-data section as the writer places it. -/
def isoDataWritePos (a b : List Nat) : Nat :=
  roundUpN (vmInstrWritePos a b + b.length) kAppSnapshotPageSize

/-- Position of the isolate-instructions section as the writer places it. -/
def isoInstrWritePos (a b c d : List Nat) : Nat :=
  if d.length ≠ 0 then roundUpN (isoDataWritePos a b + c.length) kAppSnapshotPageSize
  else isoDataWritePos a b + c.length

/-- The 40-byte header as the writer lays it down: magic, then the four
size fields at offsets 8, 16, 24, 32. -/
def blobHeaderFile (a b c d : List Nat) : WFile :=
  writeBytesAt (writeBytesAt (writeBytesAt (writeBytesAt (writeBytesAt emptyWFile 0
    appjitMagicNumber) 8 (natLE 8 a.length)) 16 (natLE 8 b.length)) 24
    (natLE 8 c.length)) 32 (natLE 8 d.length)

/-- The file produced by a fully successful `WriteAppSnapshot` run: header,
then the four sections at their page-aligned positions. -/
def writtenBlobFile (a b c d : List Nat) : WFile :=
  writeBytesAt (writeBytesAt (writeBytesAt (writeBytesAt (blobHeaderFile a b c d)
    vmDataWritePos a) (vmInstrWritePos a b) b) (isoDataWritePos a b) c)
    (isoInstrWritePos a b c d) d

/-- Trailer whose offset field holds the two's-complement encoding of the
negative value `-5` and whose magic matches. -/
def c5TrailerFile : WFile := mkFile (natLE 8 (2 ^ 64 - 5) ++ appjitMagicNumber)

/-- Header file with sizes (1, 0, 0, 0): valid magic, non-negative sizes. -/
def c3HeaderFile : WFile :=
  mkFile (appjitMagicNumber ++ natLE 8 1 ++ natLE 8 0 ++ natLE 8 0 ++ natLE 8 0)

/-- A Mach-O file with a byte-swapped 64-bit header that nevertheless
contains a correctly named (segment, section) pair. -/
def c7SwappedFile : MachOFile :=
  ⟨MH_CIGAM_64,
   [⟨LC_SEGMENT_64, [⟨kMachOAppSnapshotSegmentName, kMachOAppSnapshotSectionName, 0, 4⟩]⟩],
   fun _ => 0⟩

/-- A Mach-O file with a valid 64-bit non-swapped header whose single,
correctly named (segment, section) pair sits under a command tagged
`LC_SEGMENT` rather than `LC_SEGMENT_64`. -/
def c7Seg32File : MachOFile :=
  ⟨MH_MAGIC_64,
   [⟨LC_SEGMENT, [⟨kMachOAppSnapshotSegmentName, kMachOAppSnapshotSectionName, 0, 4⟩]⟩],
   fun _ => 0⟩

/-- Header whose vm-data size field holds the two's-complement bytes of
`-1`, with a matching magic and a full 40-byte header. -/
def c8HeaderFile : WFile :=
  mkFile (appjitMagicNumber ++ natLE 8 (2 ^ 64 - 1) ++ natLE 8 0 ++ natLE 8 0 ++ natLE 8 0)

/-- All-zero-size container: 40-byte header, matching magic, four zero
sizes. -/
def c8ZeroFile : WFile :=
  mkFile (appjitMagicNumber ++ natLE 8 0 ++ natLE 8 0 ++ natLE 8 0 ++ natLE 8 0)

/-- Environment in which the magic-number write fails but every other
operation succeeds. -/
def c9FailMagicOracle : WriteOracle :=
  ⟨true, false, true, true, true, true, true, true, true, true⟩

/-! ## Helper lemmas -/

theorem le_roundUpN (x n : Nat) (hn : 0 < n) : x ≤ roundUpN x n := by
  unfold roundUpN
  have h1 := Nat.div_add_mod (x + n - 1) n
  have h2 := Nat.mod_lt (x + n - 1) hn
  have hc : (x + n - 1) / n * n = n * ((x + n - 1) / n) := Nat.mul_comm _ _
  omega

theorem dvd_roundUpN (x n : Nat) : n ∣ roundUpN x n := by
  unfold roundUpN
  exact dvd_mul_left n _

theorem roundUpN_cast (x n : Nat) (hn : 0 < n) :
    ((roundUpN x n : Nat) : Int) = roundUpI (x : Int) (n : Int) := by
  unfold roundUpN roundUpI
  have h1 := Nat.div_add_mod (x + n - 1) n
  have hc : (x + n - 1) / n * n = n * ((x + n - 1) / n) := Nat.mul_comm _ _
  have h3 : (x + n - 1) / n * n = (x + n - 1) - (x + n - 1) % n := by omega
  rw [h3]
  have h4 : (x + n - 1) % n ≤ x + n - 1 := Nat.mod_le _ _
  have h5 : 1 ≤ x + n := by omega
  push_cast [Nat.cast_sub h4, Nat.cast_sub h5, Int.natCast_mod]
  omega

theorem le_roundUpI (x n : Int) (hn : 0 < n) : x ≤ roundUpI x n := by
  unfold roundUpI
  have h1 : 0 ≤ (x + n - 1) % n := Int.emod_nonneg _ (by omega)
  have h2 : (x + n - 1) % n < n := Int.emod_lt_of_pos _ hn
  omega

theorem dvd_roundUpI (x n : Int) : n ∣ roundUpI x n := by
  unfold roundUpI
  have h0 := Int.ediv_add_emod (x + n - 1) n
  have h : (x + n - 1) - (x + n - 1) % n = n * ((x + n - 1) / n) := by omega
  rw [h]
  exact Dvd.intro _ rfl

theorem writeBytesAt_content_of_lt (f : WFile) (p : Nat) (bs : List Nat) (i : Nat)
    (h : i < p) : (writeBytesAt f p bs).content i = f.content i := by
  simp only [writeBytesAt]
  rw [if_neg]
  omega

theorem writeBytesAt_content_of_ge (f : WFile) (p : Nat) (bs : List Nat) (i : Nat)
    (h : p + bs.length ≤ i) : (writeBytesAt f p bs).content i = f.content i := by
  simp only [writeBytesAt]
  rw [if_neg]
  omega

theorem writeBytesAt_nil (f : WFile) (p : Nat) : writeBytesAt f p [] = f := by
  ext i
  · simp only [writeBytesAt]
    rw [if_neg]
    simp only [List.length_nil]
    omega
  · simp [writeBytesAt]

theorem len_le_writeBytesAt (f : WFile) (p : Nat) (bs : List Nat) :
    f.len ≤ (writeBytesAt f p bs).len := by
  simp only [writeBytesAt]
  split
  · exact le_rfl
  · exact le_max_left _ _

theorem readBytes_length (f : WFile) (p n : Nat) : (readBytes f p n).length = n := by
  simp [readBytes]

theorem readBytes_writeBytesAt_self (f : WFile) (p : Nat) (bs : List Nat) :
    readBytes (writeBytesAt f p bs) p bs.length = bs := by
  apply List.ext_getElem
  · simp [readBytes]
  · intro i h1 h2
    simp only [readBytes, List.getElem_map, List.getElem_range, writeBytesAt]
    rw [if_pos]
    · simp only [Nat.add_sub_cancel_left]
      exact List.getD_eq_getElem bs 0 h2
    · simp only [readBytes, List.length_map, List.length_range] at h1
      omega

theorem readBytes_writeBytesAt_of_ge (f : WFile) (p q n : Nat) (bs : List Nat)
    (h : q + n ≤ p) : readBytes (writeBytesAt f p bs) q n = readBytes f q n := by
  unfold readBytes
  apply List.map_congr_left
  intro i hi
  simp only [List.mem_range] at hi
  exact writeBytesAt_content_of_lt f p bs (q + i) (by omega)

theorem mappedBytes_cast (f : WFile) (p n : Nat) :
    mappedBytes f (p : Int) (n : Int) = readBytes f p n := by
  simp [mappedBytes, readBytes]

theorem leToNat_natLE (k n : Nat) : leToNat (natLE k n) = n % 256 ^ k := by
  induction k generalizing n with
  | zero => simp [natLE, leToNat, Nat.mod_one]
  | succ k ih =>
    simp only [natLE, leToNat, ih]
    have h2 : 256 ^ (k + 1) = 256 * 256 ^ k := by ring
    rw [h2, Nat.mod_mul]

theorem natLE_length (k n : Nat) : (natLE k n).length = k := by
  induction k generalizing n with
  | zero => rfl
  | succ k ih => simp [natLE, ih]

theorem toInt64_small (n : Nat) (h : n < 2 ^ 63) : toInt64 n = (n : Int) := by
  unfold toInt64
  rw [if_pos h]

theorem decode_int64_roundtrip (n : Nat) (h : n < 2 ^ 63) :
    toInt64 (leToNat (natLE 8 n)) = (n : Int) := by
  rw [leToNat_natLE]
  have h2 : n % 256 ^ 8 = n := Nat.mod_eq_of_lt (lt_trans h (by norm_num))
  rw [h2]
  exact toInt64_small n h

theorem le_roundUpIf (c : Prop) [Decidable c] (x n : Int) (hn : 0 < n) :
    x ≤ (if c then roundUpI x n else x) := by
  split
  · exact le_roundUpI x n hn
  · exact le_rfl

theorem dvd_roundUpIf_of (c : Prop) [Decidable c] (x n : Int) (hc : c) :
    n ∣ (if c then roundUpI x n else x) := by
  rw [if_pos hc]
  exact dvd_roundUpI x n

/-! ## Claim C10 -/

/-- Claim C10: `Snapshot::IsAOTSnapshot` returns true iff the file can be
opened, is at least 4 bytes long, and starts with `0x7F 'E' 'L' 'F'`; an
unopenable or shorter file gives false, not a fatal error (the model has no
fatal outcome for this function at all). -/
theorem c10_isAOTSnapshot_iff (fo : Option WFile) :
    isAOTSnapshot fo = true ↔
      ∃ f, fo = some f ∧ 4 ≤ f.len ∧ readBytes f 0 4 = elfHeaderBytes := by
  cases fo with
  | none => simp [isAOTSnapshot]
  | some f =>
    simp only [isAOTSnapshot]
    constructor
    · intro h
      by_cases hl : f.len < 4
      · rw [if_pos hl] at h
        cases h
      · rw [if_neg hl, decide_eq_true_eq] at h
        exact ⟨f, rfl, by omega, h⟩
    · rintro ⟨g, hg, hlen, hbytes⟩
      obtain rfl : f = g := by injection hg
      rw [if_neg (by omega), decide_eq_true_eq]
      exact hbytes

/-- Witness for C10 at a concrete 4-byte ELF-prefixed file. -/
theorem c10_witness : isAOTSnapshot (some (mkFile elfHeaderBytes)) = true :=
  (c10_isAOTSnapshot_iff (some (mkFile elfHeaderBytes))).mpr
    ⟨mkFile elfHeaderBytes, rfl, by decide, by decide⟩

/-! ## Claim C6 -/

/-- Claim C6: once the dynamic library opens, a missing isolate-scope symbol
is fatal (never a soft null); both vm-scope symbols may resolve to null and
the strategy still succeeds, with null vm pointers and non-null isolate
pointers; an open failure yields the soft null so the resolver continues. -/
theorem c6_dylib_symbols (lib : Bool) (v1 v2 i1 i2 : Option Nat) :
    (lib = true → (i1 = none ∨ i2 = none) →
      tryReadAppSnapshotDynamicLibrary lib v1 v2 i1 i2 = ReadResult.fatal) ∧
    (lib = true → ∀ x y, i1 = some x → i2 = some y →
      tryReadAppSnapshotDynamicLibrary lib v1 v2 i1 i2 =
        ReadResult.ok ⟨v1, v2, some x, some y⟩) ∧
    (lib = true → v1 = none → v2 = none → ∀ x y, i1 = some x → i2 = some y →
      tryReadAppSnapshotDynamicLibrary lib v1 v2 i1 i2 =
        ReadResult.ok ⟨none, none, some x, some y⟩) ∧
    (lib = false →
      tryReadAppSnapshotDynamicLibrary lib v1 v2 i1 i2 = ReadResult.softNull) := by
  refine ⟨?_, ?_, ?_, ?_⟩
  · rintro rfl (rfl | rfl)
    · cases i2 <;> rfl
    · cases i1 <;> rfl
  · rintro rfl x y rfl rfl
    rfl
  · rintro rfl rfl rfl x y rfl rfl
    rfl
  · rintro rfl
    rfl

/-- Witness for C6: library opens, vm symbols null, isolate symbols
resolve; the handle has null vm pointers and the two isolate pointers. -/
theorem c6_witness :
    tryReadAppSnapshotDynamicLibrary true none none (some 5) (some 6) =
      ReadResult.ok ⟨none, none, some 5, some 6⟩ :=
  (c6_dylib_symbols true none none (some 5) (some 6)).2.2.1 rfl rfl rfl 5 6 rfl rfl

/-! ## Claim C5 -/

set_option maxHeartbeats 1000000 in
/-- Counterexample for C5 as stated: the claim says that whenever the
decoded 64-bit little-endian trailer offset is not strictly positive, no
embedded image is loaded.  On this file the offset bytes decode (as the
`int64_t` the container format declares) to `-5 ≤ 0`, yet the source
converts them to the unsigned value `2^64 - 5`, passes the magic/positivity
test, and invokes the ELF loader at that huge offset. -/
theorem c5_counterexample :
    toInt64 (leToNat (readBytes c5TrailerFile (c5TrailerFile.len - 16) 8)) ≤ 0 ∧
      tryReadAppendedAppSnapshotElf c5TrailerFile = some (2 ^ 64 - 5) := by
  constructor
  · decide
  · decide

/-- Amended C5: the offset comparison happens on the unsigned
reinterpretation, so the trailer is treated as absent exactly when the file
is shorter than 16 bytes, the trailing magic mismatches, or the unsigned
offset is zero; a negative `int64` offset is reinterpreted as a huge
positive offset and handed to the loader. -/
theorem c5_trailer_absent_iff (f : WFile) :
    tryReadAppendedAppSnapshotElf f = none ↔
      f.len < 16 ∨ readBytes f (f.len - 8) 8 ≠ appjitMagicNumber ∨
        leToNat (readBytes f (f.len - 16) 8) = 0 := by
  simp only [tryReadAppendedAppSnapshotElf]
  split_ifs with h1 h2
  · exact iff_of_true rfl (Or.inl h1)
  · exact iff_of_true rfl (Or.inr h2)
  · refine iff_of_false (by simp) ?_
    rintro (h | h | h)
    · exact h1 h
    · exact h2 (Or.inl h)
    · exact h2 (Or.inr h)

/-- Witness for the amended C5 at the empty file (shorter than a trailer). -/
theorem c5_amended_witness : tryReadAppendedAppSnapshotElf (mkFile []) = none :=
  (c5_trailer_absent_iff (mkFile [])).mpr (Or.inl (by decide))

/-! ## Claim C3 -/

/-- Counterexample for C3 as stated: a header the reader accepts (40 bytes,
matching magic, all sizes non-negative) whose computed vm-instructions
position is 16385 — not a multiple of 16384, because the source skips the
round-up when the corresponding size is zero. -/
theorem c3_counterexample :
    kAppSnapshotHeaderSize ≤ c3HeaderFile.len ∧
    readBytes c3HeaderFile 0 8 = appjitMagicNumber ∧
    blobVmDataSize c3HeaderFile 0 = 1 ∧
    blobVmInstrSize c3HeaderFile 0 = 0 ∧
    blobIsoDataSize c3HeaderFile 0 = 0 ∧
    blobIsoInstrSize c3HeaderFile 0 = 0 ∧
    (blobLayoutOf c3HeaderFile 0).vmInstrPos = 16385 ∧
    (blobLayoutOf c3HeaderFile 0).vmInstrPos % 16384 ≠ 0 := by
  refine ⟨by decide, by decide, by decide, by decide, by decide, by decide, by decide, by decide⟩

/-- Amended C3: for non-negative sizes the four computed positions are
monotonically non-decreasing, the two data-section positions are always
multiples of 16384, and an instruction-section position is a multiple of
16384 whenever that section is present (its size is non-zero); the position
computed for an absent instruction section need not be aligned. -/
theorem c3_layout_amended (ah s1 s2 s3 s4 : Int)
    (h1 : 0 ≤ s1) (h2 : 0 ≤ s2) (h3 : 0 ≤ s3) (h4 : 0 ≤ s4) :
    (blobLayout ah s1 s2 s3 s4).vmDataPos ≤ (blobLayout ah s1 s2 s3 s4).vmInstrPos ∧
    (blobLayout ah s1 s2 s3 s4).vmInstrPos ≤ (blobLayout ah s1 s2 s3 s4).isoDataPos ∧
    (blobLayout ah s1 s2 s3 s4).isoDataPos ≤ (blobLayout ah s1 s2 s3 s4).isoInstrPos ∧
    ((kAppSnapshotPageSize : Int) ∣ (blobLayout ah s1 s2 s3 s4).vmDataPos) ∧
    ((kAppSnapshotPageSize : Int) ∣ (blobLayout ah s1 s2 s3 s4).isoDataPos) ∧
    (s2 ≠ 0 → (kAppSnapshotPageSize : Int) ∣ (blobLayout ah s1 s2 s3 s4).vmInstrPos) ∧
    (s4 ≠ 0 → (kAppSnapshotPageSize : Int) ∣ (blobLayout ah s1 s2 s3 s4).isoInstrPos) := by
  have hpage : (0 : Int) < (kAppSnapshotPageSize : Int) := by
    norm_num [kAppSnapshotPageSize]
  simp only [blobLayout]
  refine ⟨?_, ?_, ?_, ?_, ?_, ?_, ?_⟩
  · exact le_trans (le_add_of_nonneg_right h1) (le_roundUpIf _ _ _ hpage)
  · exact le_trans (le_add_of_nonneg_right h2) (le_roundUpI _ _ hpage)
  · exact le_trans (le_add_of_nonneg_right h3) (le_roundUpIf _ _ _ hpage)
  · exact dvd_roundUpI _ _
  · exact dvd_roundUpI _ _
  · intro hs2
    exact dvd_roundUpIf_of _ _ _ hs2
  · intro hs4
    exact dvd_roundUpIf_of _ _ _ hs4

/-- Witness for the amended C3 at the all-zero-size header layout. -/
theorem c3_amended_witness :
    (blobLayout 40 0 0 0 0).vmDataPos ≤ (blobLayout 40 0 0 0 0).vmInstrPos :=
  (c3_layout_amended 40 0 0 0 0 (by decide) (by decide) (by decide) (by decide)).1

/-! ## Claim C2 -/

/-- Claim C2: the resolver rejects non-regular files immediately (probing no
strategy); otherwise it probes blob container, then dynamic library (skipped
when `force_load_elf_from_memory` is set), then the ELF probe, first
non-null handle winning — in particular a file that is simultaneously a
valid blob container and carries a trailer resolves as a blob container —
and when every strategy misses the result is null, not a fatal error. -/
theorem c2_resolver_order (du uo : Bool) (ft : FileType) (force : Bool)
    (blobs dylib elf : Option Nat) :
    (ft ≠ FileType.file →
      tryReadAppSnapshot du uo ft force blobs dylib elf = (none, [])) ∧
    ((du = true → uo = true) → ft = FileType.file →
      ((∀ h, blobs = some h →
        tryReadAppSnapshot du uo ft force blobs dylib elf =
          (some h, [Strategy.blobs])) ∧
      (blobs = none → force = false → ∀ h, dylib = some h →
        tryReadAppSnapshot du uo ft force blobs dylib elf =
          (some h, [Strategy.blobs, Strategy.dylib])) ∧
      (blobs = none → force = false → dylib = none →
        tryReadAppSnapshot du uo ft force blobs dylib elf =
          (elf, [Strategy.blobs, Strategy.dylib, Strategy.elf])) ∧
      (blobs = none → force = true →
        tryReadAppSnapshot du uo ft force blobs dylib elf =
          (elf, [Strategy.blobs, Strategy.elf])) ∧
      (blobs = none → dylib = none → elf = none →
        (tryReadAppSnapshot du uo ft force blobs dylib elf).1 = none))) := by
  constructor
  · intro hft
    unfold tryReadAppSnapshot
    by_cases h1 : du = true ∧ uo = false
    · rw [if_pos h1]
    · rw [if_neg h1, if_pos hft]
  · intro hdu hft
    have hcond : ¬(du = true ∧ uo = false) := by
      rintro ⟨ha, hb⟩
      rw [hdu ha] at hb
      exact Bool.noConfusion hb
    have hft2 : ¬(ft ≠ FileType.file) := by
      simp [hft]
    refine ⟨?_, ?_, ?_, ?_, ?_⟩
    · rintro h rfl
      unfold tryReadAppSnapshot
      simp only [if_neg hcond, if_neg hft2]
    · rintro rfl rfl h rfl
      unfold tryReadAppSnapshot
      simp only [if_neg hcond, if_neg hft2]
      rfl
    · rintro rfl rfl rfl
      unfold tryReadAppSnapshot
      simp only [if_neg hcond, if_neg hft2]
      rfl
    · rintro rfl rfl
      unfold tryReadAppSnapshot
      simp only [if_neg hcond, if_neg hft2]
      rfl
    · rintro rfl rfl rfl
      unfold tryReadAppSnapshot
      simp only [if_neg hcond, if_neg hft2]
      cases force <;> rfl

/-- Witness for C2: a pipe is rejected with no strategy probed, even though
the blob strategy would have succeeded. -/
theorem c2_witness :
    tryReadAppSnapshot false true FileType.pipe false (some 1) none none = (none, []) :=
  (c2_resolver_order false true FileType.pipe false (some 1) none none).1 (by decide)

/-! ## Claim C7 -/

theorem findInSections_eq_find (cmd : Nat) (ss : List MachOSection) :
    findInSections cmd ss =
      ((ss.map (fun s => (cmd, s))).find? machOSectionMatches).map (fun p => p.2) := by
  induction ss with
  | nil => rfl
  | cons s rest ih =>
    by_cases hC : cmd = LC_SEGMENT_64 ∧ s.segname = kMachOAppSnapshotSegmentName ∧
        s.sectname = kMachOAppSnapshotSectionName
    · rw [findInSections, if_pos hC]
      have hm : machOSectionMatches (cmd, s) = true := by
        simp only [machOSectionMatches, decide_eq_true_eq]
        exact hC
      rw [List.map_cons, List.find?_cons_of_pos _ (by simp [hm])]
      rfl
    · rw [findInSections, if_neg hC]
      have hm : machOSectionMatches (cmd, s) = false := by
        simp only [machOSectionMatches, decide_eq_false_iff_not]
        exact hC
      rw [List.map_cons, List.find?_cons_of_neg _ (by simp [hm]), ih]

theorem findSnapshotSection_eq_find (cmds : List MachOCommand) :
    findSnapshotSection cmds =
      ((machOAllSections cmds).find? machOSectionMatches).map (fun p => p.2) := by
  induction cmds with
  | nil => rfl
  | cons c rest ih =>
    have hflat : machOAllSections (c :: rest) =
        c.sections.map (fun s => (c.cmd, s)) ++ machOAllSections rest := by
      simp [machOAllSections]
    rw [hflat, List.find?_append]
    by_cases hseg : c.cmd ≠ LC_SEGMENT ∧ c.cmd ≠ LC_SEGMENT_64
    · rw [findSnapshotSection, if_pos hseg, ih]
      have hnone : (c.sections.map (fun s => (c.cmd, s))).find? machOSectionMatches = none := by
        rw [List.find?_eq_none]
        rintro ⟨pc, ps⟩ hmem
        simp only [List.mem_map] at hmem
        obtain ⟨s, _, hs⟩ := hmem
        obtain ⟨rfl, rfl⟩ : pc = c.cmd ∧ ps = s := by
          cases hs
          exact ⟨rfl, rfl⟩
        simp only [machOSectionMatches, decide_eq_true_eq]
        rintro ⟨h64, _⟩
        exact hseg.2 h64
      rw [hnone]
      rfl
    · rw [findSnapshotSection, if_neg hseg, findInSections_eq_find]
      cases hfind : (c.sections.map (fun s => (c.cmd, s))).find? machOSectionMatches with
      | none => simp [hfind, ih]
      | some p => simp [hfind]

/-- Counterexample for C7 as stated: the claim says that for a valid
64-bit non-swapped header, the first section whose segment and section
names equal the fixed constants is extracted.  On this file the header is
valid 64-bit non-swapped and a correctly named pair exists, yet the walker
extracts nothing (`noMatch`, a null return): the source's match condition
at line 313 additionally requires the enclosing command tag to be
`LC_SEGMENT_64`, and here the named section sits under an `LC_SEGMENT`
command, whose sections the walker scans but never matches. -/
theorem c7_counterexample :
    c7Seg32File.magic = MH_MAGIC_64 ∧
    hasNamedSection c7Seg32File.commands ∧
    tryReadAppendedAppSnapshotElfFromMachO c7Seg32File = MachOProbeResult.noMatch := by
  refine ⟨rfl, ?_, by decide⟩
  exact ⟨⟨LC_SEGMENT, [⟨kMachOAppSnapshotSegmentName, kMachOAppSnapshotSectionName, 0, 4⟩]⟩,
    by simp [c7Seg32File],
    ⟨kMachOAppSnapshotSegmentName, kMachOAppSnapshotSectionName, 0, 4⟩,
    by simp, rfl, rfl⟩

/-- Amended C7: a byte-swapped or 32-bit Mach-O header is rejected with a
null result before any load command is scanned — the result does not depend
on the command list, even when a correctly named (segment, section) pair is
present — while for a valid 64-bit non-swapped header the walker extracts
the first section whose enclosing segment command is tagged `LC_SEGMENT_64`
*and* whose names equal the fixed constants, copying exactly
`section.size` bytes from `section.offset` for the ELF-loader delegate;
a correctly named section under an `LC_SEGMENT`-tagged command is
skipped. -/
theorem c7_macho_header_rejection (m : MachOFile) :
    ((m.magic = MH_CIGAM ∨ m.magic = MH_CIGAM_64) → hasNamedSection m.commands →
      tryReadAppendedAppSnapshotElfFromMachO m = MachOProbeResult.swapped) ∧
    (m.magic = MH_MAGIC → hasNamedSection m.commands →
      tryReadAppendedAppSnapshotElfFromMachO m = MachOProbeResult.bits32) ∧
    (m.magic = MH_MAGIC_64 →
      tryReadAppendedAppSnapshotElfFromMachO m =
        match (machOAllSections m.commands).find? machOSectionMatches with
        | some p => MachOProbeResult.delegated
            ((List.range p.2.size).map (fun i => m.content (p.2.offset + i)))
        | none => MachOProbeResult.noMatch) := by
  refine ⟨?_, ?_, ?_⟩
  · rintro (hm | hm) _ <;>
      simp [tryReadAppendedAppSnapshotElfFromMachO, hm, MH_MAGIC, MH_CIGAM,
        MH_MAGIC_64, MH_CIGAM_64]
  · intro hm _
    simp [tryReadAppendedAppSnapshotElfFromMachO, hm, MH_MAGIC, MH_CIGAM,
      MH_MAGIC_64, MH_CIGAM_64]
  · intro hm
    have h1 : (m.magic = MH_MAGIC_64 ∨ m.magic = MH_CIGAM_64 ∨ m.magic = MH_MAGIC ∨
        m.magic = MH_CIGAM) := Or.inl hm
    have h2 : ¬(m.magic = MH_CIGAM ∨ m.magic = MH_CIGAM_64) := by
      rw [hm]
      simp [MH_MAGIC_64, MH_CIGAM, MH_CIGAM_64]
    have h3 : ¬¬(m.magic = MH_MAGIC_64 ∨ m.magic = MH_CIGAM_64) :=
      not_not_intro (Or.inl hm)
    rw [tryReadAppendedAppSnapshotElfFromMachO, if_neg (not_not_intro h1), if_neg h2,
      if_neg h3, findSnapshotSection_eq_find]
    cases (machOAllSections m.commands).find? machOSectionMatches with
    | none => rfl
    | some p => rfl

/-- Witness for C7: the byte-swapped file with a correctly named section is
rejected (null return issued before the walk). -/
theorem c7_witness :
    tryReadAppendedAppSnapshotElfFromMachO c7SwappedFile = MachOProbeResult.swapped :=
  (c7_macho_header_rejection c7SwappedFile).1 (Or.inr rfl)
    ⟨⟨LC_SEGMENT_64, [⟨kMachOAppSnapshotSegmentName, kMachOAppSnapshotSectionName, 0, 4⟩]⟩,
      by simp [c7SwappedFile],
      ⟨kMachOAppSnapshotSegmentName, kMachOAppSnapshotSectionName, 0, 4⟩,
      by simp, rfl, rfl⟩

/-! ## Claim C4 -/

/-- Claim C4: the blob reader returns a soft null (not a fatal error) when
fewer than 40 bytes remain or the leading 8 bytes mismatch the magic; once
the header is accepted, a map failure on any section with a non-zero
declared size is fatal (the operation terminates with a diagnostic instead
of returning null). -/
theorem c4_blob_error_taxonomy (mf : Int → Int → Bool) (f : WFile) (pos0 : Nat) :
    (f.len < pos0 + kAppSnapshotHeaderSize →
      tryReadAppSnapshotBlobs mf f pos0 = ReadResult.softNull) ∧
    (readBytes f pos0 8 ≠ appjitMagicNumber →
      tryReadAppSnapshotBlobs mf f pos0 = ReadResult.softNull) ∧
    (pos0 + kAppSnapshotHeaderSize ≤ f.len →
      readBytes f pos0 8 = appjitMagicNumber →
      ((blobVmDataSize f pos0 ≠ 0 ∧
          mf (blobLayoutOf f pos0).vmDataPos (blobVmDataSize f pos0) = true) ∨
       (blobVmInstrSize f pos0 ≠ 0 ∧
          mf (blobLayoutOf f pos0).vmInstrPos (blobVmInstrSize f pos0) = true) ∨
       (blobIsoDataSize f pos0 ≠ 0 ∧
          mf (blobLayoutOf f pos0).isoDataPos (blobIsoDataSize f pos0) = true) ∨
       (blobIsoInstrSize f pos0 ≠ 0 ∧
          mf (blobLayoutOf f pos0).isoInstrPos (blobIsoInstrSize f pos0) = true)) →
      tryReadAppSnapshotBlobs mf f pos0 = ReadResult.fatal) := by
  refine ⟨?_, ?_, ?_⟩
  · intro h
    unfold tryReadAppSnapshotBlobs
    rw [if_pos h]
  · intro h
    unfold tryReadAppSnapshotBlobs
    by_cases hl : f.len < pos0 + kAppSnapshotHeaderSize
    · rw [if_pos hl]
    · rw [if_neg hl, if_pos h]
  · intro hlen hmg hdisj
    simp only [tryReadAppSnapshotBlobs]
    rw [if_neg (by omega), if_neg (not_not_intro hmg)]
    split_ifs with g1 g2 g3 g4
    · rfl
    · rfl
    · rfl
    · rfl
    · exfalso
      rcases hdisj with h | h | h | h
      · exact g1 h
      · exact g2 h
      · exact g3 h
      · exact g4 h

/-- Witness for C4: a well-formed header declaring one non-empty section,
read in an environment whose every map call fails, ends fatally. -/
theorem c4_witness :
    tryReadAppSnapshotBlobs (fun _ _ => true) c3HeaderFile 0 = ReadResult.fatal :=
  (c4_blob_error_taxonomy (fun _ _ => true) c3HeaderFile 0).2.2 (by decide) (by decide)
    (Or.inl ⟨by decide, rfl⟩)

/-! ## Claim C8 -/

set_option maxHeartbeats 1000000 in
/-- Counterexample for C8 as stated: a file the blob reader accepts in the
claim's sense (at least 40 bytes remaining and matching magic) whose decoded
vm-data size is `-1` — the reader never validates that the four decoded
`int64` sizes are non-negative. -/
theorem c8_counterexample :
    kAppSnapshotHeaderSize ≤ c8HeaderFile.len ∧
    readBytes c8HeaderFile 0 8 = appjitMagicNumber ∧
    blobVmDataSize c8HeaderFile 0 = -1 := by
  refine ⟨by decide, by decide, by decide⟩

/-- Amended C8: the reader does not validate the sign of the decoded sizes;
what holds is the zero-size contract — whenever the read succeeds, a
section's output pointer is null exactly when its decoded size is zero. -/
theorem c8_zero_size_absent (mf : Int → Int → Bool) (f : WFile) (pos0 : Nat)
    (h : BlobHandle) (hok : tryReadAppSnapshotBlobs mf f pos0 = ReadResult.ok h) :
    (h.vmData = none ↔ blobVmDataSize f pos0 = 0) ∧
    (h.vmInstr = none ↔ blobVmInstrSize f pos0 = 0) ∧
    (h.isoData = none ↔ blobIsoDataSize f pos0 = 0) ∧
    (h.isoInstr = none ↔ blobIsoInstrSize f pos0 = 0) := by
  simp only [tryReadAppSnapshotBlobs] at hok
  split_ifs at hok
  all_goals injection hok with hx
  all_goals subst hx
  all_goals refine ⟨?_, ?_, ?_, ?_⟩ <;> simp_all

/-- Witness for the amended C8 on a concrete all-zero-size container whose
read succeeds with four null section pointers. -/
theorem c8_amended_witness :
    (BlobHandle.mk none none none none).vmData = none ↔ blobVmDataSize c8ZeroFile 0 = 0 :=
  (c8_zero_size_absent (fun _ _ => false) c8ZeroFile 0
    (BlobHandle.mk none none none none) (by decide)).1

/-! ## Claim C9 -/

/-- Counterexample for C9 as stated: the claim says a failure while writing
the header aborts the operation, equivalently that a normal return implies
every issued write succeeded.  Here the magic write fails, yet
`WriteAppSnapshot` returns normally: the source never checks the results of
the five header writes. -/
theorem c9_counterexample :
    c9FailMagicOracle.okMagic = false ∧
      (writeAppSnapshot c9FailMagicOracle [1] [] [1] []).isOk = true := by
  constructor
  · rfl
  · rfl

/-- Amended C9: only the open and the four section writes are checked; the
write returns normally exactly when the open succeeds, the two unconditional
data-section writes succeed, and each instruction-section write that is
attempted (non-zero size) succeeds.  Failures of the five header writes
(magic and the four size fields) are ignored. -/
theorem c9_checked_writes (o : WriteOracle) (a b c d : List Nat) :
    (writeAppSnapshot o a b c d).isOk = true ↔
      (o.okOpen = true ∧ o.okVmData = true ∧ (b.length ≠ 0 → o.okVmInstr = true) ∧
       o.okIsoData = true ∧ (d.length ≠ 0 → o.okIsoInstr = true)) := by
  unfold writeAppSnapshot
  split_ifs with h1 h2 h3 h4 h5
  · simp [Except.isOk, Except.toBool, h1]
  · simp [Except.isOk, Except.toBool, h2]
  · simp [Except.isOk, Except.toBool, h3.1, h3.2]
  · simp [Except.isOk, Except.toBool, h4]
  · simp [Except.isOk, Except.toBool, h5.1, h5.2]
  · simp only [Bool.not_eq_false] at h1 h2 h4
    simp only [Except.isOk, Except.toBool, true_iff]
    refine ⟨h1, h2, ?_, h4, ?_⟩
    · intro hb
      cases hI : o.okVmInstr with
      | true => rfl
      | false => exact absurd ⟨hb, hI⟩ h3
    · intro hd
      cases hI : o.okIsoInstr with
      | true => rfl
      | false => exact absurd ⟨hd, hI⟩ h5

/-- Witness for the amended C9: the all-successful environment returns
normally. -/
theorem c9_amended_witness :
    (writeAppSnapshot allOkWrites [1] [] [1] []).isOk = true :=
  (c9_checked_writes allOkWrites [1] [] [1] []).mpr
    ⟨rfl, rfl, fun _ => rfl, rfl, fun _ => rfl⟩

/-! ## Claim C1: round trip -/

theorem appjitMagicNumber_length : appjitMagicNumber.length = 8 := rfl

theorem natLE8_ne_nil (n : Nat) : natLE 8 n ≠ [] := by
  intro h
  have := natLE_length 8 n
  rw [h] at this
  simp at this

theorem alignedWriteIfPresent_eq (fp : WFile × Nat) (bs : List Nat) :
    alignedWriteIfPresent fp bs =
      (writeBytesAt fp.1
        (if bs.length ≠ 0 then roundUpN fp.2 kAppSnapshotPageSize else fp.2) bs,
       (if bs.length ≠ 0 then roundUpN fp.2 kAppSnapshotPageSize else fp.2) + bs.length) := by
  unfold alignedWriteIfPresent alignedWrite
  split_ifs with h
  · rfl
  · have hb : bs = [] := List.length_eq_zero.mp (by omega)
    subst hb
    rw [writeBytesAt_nil]
    simp

theorem writeAppSnapshot_allOk (a b c d : List Nat) :
    writeAppSnapshot allOkWrites a b c d = Except.ok (writtenBlobFile a b c d) := by
  simp only [writeAppSnapshot, allOkWrites, uncheckedWrite, alignedWrite,
    alignedWriteIfPresent_eq, writtenBlobFile, blobHeaderFile, vmDataWritePos,
    vmInstrWritePos, isoDataWritePos, isoInstrWritePos, appjitMagicNumber_length,
    natLE_length, if_true, Bool.true_eq_false, if_false, and_false, ite_false,
    not_false_eq_true]

theorem hpage_pos : 0 < kAppSnapshotPageSize := by norm_num [kAppSnapshotPageSize]

theorem vmDataWritePos_eq : vmDataWritePos = 16384 := by decide

theorem le_vmInstrWritePos (a b : List Nat) :
    vmDataWritePos + a.length ≤ vmInstrWritePos a b := by
  unfold vmInstrWritePos
  split
  · exact le_roundUpN _ _ hpage_pos
  · exact le_rfl

theorem le_isoDataWritePos (a b : List Nat) :
    vmInstrWritePos a b + b.length ≤ isoDataWritePos a b :=
  le_roundUpN _ _ hpage_pos

theorem le_isoInstrWritePos (a b c d : List Nat) :
    isoDataWritePos a b + c.length ≤ isoInstrWritePos a b c d := by
  unfold isoInstrWritePos
  split
  · exact le_roundUpN _ _ hpage_pos
  · exact le_rfl

theorem writeBytesAt_len (f : WFile) (p : Nat) (bs : List Nat) (h : bs ≠ []) :
    (writeBytesAt f p bs).len = max f.len (p + bs.length) := by
  simp [writeBytesAt, h]

theorem blobHeaderFile_len (a b c d : List Nat) : (blobHeaderFile a b c d).len = 40 := by
  unfold blobHeaderFile
  rw [writeBytesAt_len _ _ _ (natLE8_ne_nil _), writeBytesAt_len _ _ _ (natLE8_ne_nil _),
    writeBytesAt_len _ _ _ (natLE8_ne_nil _), writeBytesAt_len _ _ _ (natLE8_ne_nil _),
    writeBytesAt_len _ _ _ (by decide)]
  simp only [natLE_length, appjitMagicNumber_length, emptyWFile]
  omega

theorem writtenBlobFile_len (a b c d : List Nat) :
    40 ≤ (writtenBlobFile a b c d).len := by
  unfold writtenBlobFile
  calc (40 : Nat) = (blobHeaderFile a b c d).len := (blobHeaderFile_len a b c d).symm
    _ ≤ _ := le_trans (len_le_writeBytesAt _ _ _) (le_trans (len_le_writeBytesAt _ _ _)
        (le_trans (len_le_writeBytesAt _ _ _) (len_le_writeBytesAt _ _ _)))

theorem writtenBlobFile_magic (a b c d : List Nat) :
    readBytes (writtenBlobFile a b c d) 0 8 = appjitMagicNumber := by
  have hA := vmDataWritePos_eq
  have hB := le_vmInstrWritePos a b
  have hC := le_isoDataWritePos a b
  have hD := le_isoInstrWritePos a b c d
  unfold writtenBlobFile blobHeaderFile
  rw [readBytes_writeBytesAt_of_ge _ _ _ _ _ (by omega),
      readBytes_writeBytesAt_of_ge _ _ _ _ _ (by omega),
      readBytes_writeBytesAt_of_ge _ _ _ _ _ (by omega),
      readBytes_writeBytesAt_of_ge _ _ _ _ _ (by omega),
      readBytes_writeBytesAt_of_ge _ _ _ _ _ (by omega),
      readBytes_writeBytesAt_of_ge _ _ _ _ _ (by omega),
      readBytes_writeBytesAt_of_ge _ _ _ _ _ (by omega),
      readBytes_writeBytesAt_of_ge _ _ _ _ _ (by omega)]
  have h := readBytes_writeBytesAt_self emptyWFile 0 appjitMagicNumber
  rw [appjitMagicNumber_length] at h
  exact h

theorem writtenBlobFile_field1 (a b c d : List Nat) :
    readBytes (writtenBlobFile a b c d) 8 8 = natLE 8 a.length := by
  have hA := vmDataWritePos_eq
  have hB := le_vmInstrWritePos a b
  have hC := le_isoDataWritePos a b
  have hD := le_isoInstrWritePos a b c d
  unfold writtenBlobFile blobHeaderFile
  rw [readBytes_writeBytesAt_of_ge _ _ _ _ _ (by omega),
      readBytes_writeBytesAt_of_ge _ _ _ _ _ (by omega),
      readBytes_writeBytesAt_of_ge _ _ _ _ _ (by omega),
      readBytes_writeBytesAt_of_ge _ _ _ _ _ (by omega),
      readBytes_writeBytesAt_of_ge _ _ _ _ _ (by omega),
      readBytes_writeBytesAt_of_ge _ _ _ _ _ (by omega),
      readBytes_writeBytesAt_of_ge _ _ _ _ _ (by omega)]
  have h := readBytes_writeBytesAt_self (writeBytesAt emptyWFile 0 appjitMagicNumber) 8
    (natLE 8 a.length)
  rw [natLE_length] at h
  exact h

theorem writtenBlobFile_field2 (a b c d : List Nat) :
    readBytes (writtenBlobFile a b c d) 16 8 = natLE 8 b.length := by
  have hA := vmDataWritePos_eq
  have hB := le_vmInstrWritePos a b
  have hC := le_isoDataWritePos a b
  have hD := le_isoInstrWritePos a b c d
  unfold writtenBlobFile blobHeaderFile
  rw [readBytes_writeBytesAt_of_ge _ _ _ _ _ (by omega),
      readBytes_writeBytesAt_of_ge _ _ _ _ _ (by omega),
      readBytes_writeBytesAt_of_ge _ _ _ _ _ (by omega),
      readBytes_writeBytesAt_of_ge _ _ _ _ _ (by omega),
      readBytes_writeBytesAt_of_ge _ _ _ _ _ (by omega),
      readBytes_writeBytesAt_of_ge _ _ _ _ _ (by omega)]
  have h := readBytes_writeBytesAt_self (writeBytesAt (writeBytesAt emptyWFile 0
    appjitMagicNumber) 8 (natLE 8 a.length)) 16 (natLE 8 b.length)
  rw [natLE_length] at h
  exact h

theorem writtenBlobFile_field3 (a b c d : List Nat) :
    readBytes (writtenBlobFile a b c d) 24 8 = natLE 8 c.length := by
  have hA := vmDataWritePos_eq
  have hB := le_vmInstrWritePos a b
  have hC := le_isoDataWritePos a b
  have hD := le_isoInstrWritePos a b c d
  unfold writtenBlobFile blobHeaderFile
  rw [readBytes_writeBytesAt_of_ge _ _ _ _ _ (by omega),
      readBytes_writeBytesAt_of_ge _ _ _ _ _ (by omega),
      readBytes_writeBytesAt_of_ge _ _ _ _ _ (by omega),
      readBytes_writeBytesAt_of_ge _ _ _ _ _ (by omega),
      readBytes_writeBytesAt_of_ge _ _ _ _ _ (by omega)]
  have h := readBytes_writeBytesAt_self (writeBytesAt (writeBytesAt (writeBytesAt emptyWFile 0
    appjitMagicNumber) 8 (natLE 8 a.length)) 16 (natLE 8 b.length)) 24 (natLE 8 c.length)
  rw [natLE_length] at h
  exact h

theorem writtenBlobFile_field4 (a b c d : List Nat) :
    readBytes (writtenBlobFile a b c d) 32 8 = natLE 8 d.length := by
  have hA := vmDataWritePos_eq
  have hB := le_vmInstrWritePos a b
  have hC := le_isoDataWritePos a b
  have hD := le_isoInstrWritePos a b c d
  unfold writtenBlobFile blobHeaderFile
  rw [readBytes_writeBytesAt_of_ge _ _ _ _ _ (by omega),
      readBytes_writeBytesAt_of_ge _ _ _ _ _ (by omega),
      readBytes_writeBytesAt_of_ge _ _ _ _ _ (by omega),
      readBytes_writeBytesAt_of_ge _ _ _ _ _ (by omega)]
  have h := readBytes_writeBytesAt_self (writeBytesAt (writeBytesAt (writeBytesAt (writeBytesAt
    emptyWFile 0 appjitMagicNumber) 8 (natLE 8 a.length)) 16 (natLE 8 b.length)) 24
    (natLE 8 c.length)) 32 (natLE 8 d.length)
  rw [natLE_length] at h
  exact h

theorem writtenBlobFile_vmData (a b c d : List Nat) :
    readBytes (writtenBlobFile a b c d) vmDataWritePos a.length = a := by
  have hB := le_vmInstrWritePos a b
  have hC := le_isoDataWritePos a b
  have hD := le_isoInstrWritePos a b c d
  unfold writtenBlobFile
  rw [readBytes_writeBytesAt_of_ge _ _ _ _ _ (by omega),
      readBytes_writeBytesAt_of_ge _ _ _ _ _ (by omega),
      readBytes_writeBytesAt_of_ge _ _ _ _ _ (by omega)]
  exact readBytes_writeBytesAt_self _ _ a

theorem writtenBlobFile_vmInstr (a b c d : List Nat) :
    readBytes (writtenBlobFile a b c d) (vmInstrWritePos a b) b.length = b := by
  have hC := le_isoDataWritePos a b
  have hD := le_isoInstrWritePos a b c d
  unfold writtenBlobFile
  rw [readBytes_writeBytesAt_of_ge _ _ _ _ _ (by omega),
      readBytes_writeBytesAt_of_ge _ _ _ _ _ (by omega)]
  exact readBytes_writeBytesAt_self _ _ b

theorem writtenBlobFile_isoData (a b c d : List Nat) :
    readBytes (writtenBlobFile a b c d) (isoDataWritePos a b) c.length = c := by
  have hD := le_isoInstrWritePos a b c d
  unfold writtenBlobFile
  rw [readBytes_writeBytesAt_of_ge _ _ _ _ _ (by omega)]
  exact readBytes_writeBytesAt_self _ _ c

theorem writtenBlobFile_isoInstr (a b c d : List Nat) :
    readBytes (writtenBlobFile a b c d) (isoInstrWritePos a b c d) d.length = d := by
  unfold writtenBlobFile
  exact readBytes_writeBytesAt_self _ _ d

theorem blobLayout_writePositions (a b c d : List Nat) :
    blobLayout 40 (a.length : Int) (b.length : Int) (c.length : Int) (d.length : Int) =
      BlobLayout.mk (vmDataWritePos : Int) (vmInstrWritePos a b : Int)
        (isoDataWritePos a b : Int) (isoInstrWritePos a b c d : Int) := by
  have hpage := hpage_pos
  have g1 : roundUpI 40 (kAppSnapshotPageSize : Int) = (vmDataWritePos : Int) := by
    unfold vmDataWritePos
    rw [roundUpN_cast _ _ hpage]
    norm_num
  have g2 : (if (b.length : Int) ≠ 0 then
        roundUpI (roundUpI 40 (kAppSnapshotPageSize : Int) + (a.length : Int))
          (kAppSnapshotPageSize : Int)
      else roundUpI 40 (kAppSnapshotPageSize : Int) + (a.length : Int)) =
      (vmInstrWritePos a b : Int) := by
    unfold vmInstrWritePos
    by_cases hb : b.length = 0
    · rw [if_neg (by simpa using hb), if_neg (not_not_intro hb), g1]
      push_cast
      ring
    · rw [if_pos (by simpa using hb), if_pos hb, g1, roundUpN_cast _ _ hpage]
      push_cast
      ring
  have g3 : roundUpI ((if (b.length : Int) ≠ 0 then
        roundUpI (roundUpI 40 (kAppSnapshotPageSize : Int) + (a.length : Int))
          (kAppSnapshotPageSize : Int)
      else roundUpI 40 (kAppSnapshotPageSize : Int) + (a.length : Int)) + (b.length : Int))
        (kAppSnapshotPageSize : Int) = (isoDataWritePos a b : Int) := by
    rw [g2]
    unfold isoDataWritePos
    rw [roundUpN_cast _ _ hpage]
    push_cast
    ring
  have g4 : (if (d.length : Int) ≠ 0 then
        roundUpI ((isoDataWritePos a b : Int) + (c.length : Int)) (kAppSnapshotPageSize : Int)
      else (isoDataWritePos a b : Int) + (c.length : Int)) =
      (isoInstrWritePos a b c d : Int) := by
    unfold isoInstrWritePos
    by_cases hd : d.length = 0
    · rw [if_neg (by simpa using hd), if_neg (not_not_intro hd)]
      push_cast
      ring
    · rw [if_pos (by simpa using hd), if_pos hd, roundUpN_cast _ _ hpage]
      push_cast
      ring
  simp only [blobLayout]
  rw [BlobLayout.mk.injEq]
  refine ⟨g1, g2, g3, ?_⟩
  rw [g3, g4]

theorem tryRead_writtenBlobFile (a b c d : List Nat)
    (ha : a.length < 2 ^ 63) (hb : b.length < 2 ^ 63) (hc : c.length < 2 ^ 63)
    (hd : d.length < 2 ^ 63) :
    tryReadAppSnapshotBlobs (fun _ _ => false) (writtenBlobFile a b c d) 0 =
      ReadResult.ok ⟨presentOf a, presentOf b, presentOf c, presentOf d⟩ := by
  have h40 := writtenBlobFile_len a b c d
  have hk : kAppSnapshotHeaderSize = 40 := rfl
  have hmg := writtenBlobFile_magic a b c d
  have hs1 : blobVmDataSize (writtenBlobFile a b c d) 0 = (a.length : Int) := by
    unfold blobVmDataSize
    rw [Nat.zero_add, writtenBlobFile_field1]
    exact decode_int64_roundtrip _ ha
  have hs2 : blobVmInstrSize (writtenBlobFile a b c d) 0 = (b.length : Int) := by
    unfold blobVmInstrSize
    rw [Nat.zero_add, writtenBlobFile_field2]
    exact decode_int64_roundtrip _ hb
  have hs3 : blobIsoDataSize (writtenBlobFile a b c d) 0 = (c.length : Int) := by
    unfold blobIsoDataSize
    rw [Nat.zero_add, writtenBlobFile_field3]
    exact decode_int64_roundtrip _ hc
  have hs4 : blobIsoInstrSize (writtenBlobFile a b c d) 0 = (d.length : Int) := by
    unfold blobIsoInstrSize
    rw [Nat.zero_add, writtenBlobFile_field4]
    exact decode_int64_roundtrip _ hd
  have hlay : blobLayoutOf (writtenBlobFile a b c d) 0 =
      BlobLayout.mk (vmDataWritePos : Int) (vmInstrWritePos a b : Int)
        (isoDataWritePos a b : Int) (isoInstrWritePos a b c d : Int) := by
    unfold blobLayoutOf
    rw [hs1, hs2, hs3, hs4]
    simp only [Nat.cast_zero, zero_add]
    exact blobLayout_writePositions a b c d
  simp only [tryReadAppSnapshotBlobs]
  rw [if_neg (by omega), if_neg (not_not_intro hmg), hs1, hs2, hs3, hs4, hlay]
  simp only [ne_eq, Bool.false_eq_true, and_false, if_false, ite_false, if_neg,
    not_false_eq_true]
  rw [mappedBytes_cast, mappedBytes_cast, mappedBytes_cast, mappedBytes_cast,
    writtenBlobFile_vmData, writtenBlobFile_vmInstr, writtenBlobFile_isoData,
    writtenBlobFile_isoInstr]
  simp [presentOf, Nat.cast_eq_zero]

/-- Claim C1: for every choice of the four sections with sizes drawn from
{0, 1, 16383, 16384, 16385} in any combination, writing a blob container
with `WriteAppSnapshot` and reading the resulting file back with
`TryReadAppSnapshotBlobs` yields byte-identical section contents, and the
output buffer for every zero-size section is null (`none`). -/
theorem c1_blob_roundtrip (a b c d : List Nat)
    (ha : a.length ∈ snapshotSizeChoices) (hb : b.length ∈ snapshotSizeChoices)
    (hc : c.length ∈ snapshotSizeChoices) (hd : d.length ∈ snapshotSizeChoices) :
    ∃ F, writeAppSnapshot allOkWrites a b c d = Except.ok F ∧
      tryReadAppSnapshotBlobs (fun _ _ => false) F 0 =
        ReadResult.ok ⟨presentOf a, presentOf b, presentOf c, presentOf d⟩ := by
  have bound : ∀ x : Nat, x ∈ snapshotSizeChoices → x < 2 ^ 63 := by
    intro x hx
    simp only [snapshotSizeChoices, List.mem_cons, List.mem_singleton,
      List.not_mem_nil, or_false] at hx
    rcases hx with rfl | rfl | rfl | rfl | rfl <;> norm_num
  exact ⟨writtenBlobFile a b c d, writeAppSnapshot_allOk a b c d,
    tryRead_writtenBlobFile a b c d (bound _ ha) (bound _ hb) (bound _ hc) (bound _ hd)⟩

/-- Witness for C1 at sizes (1, 0, 1, 0). -/
theorem c1_witness :
    ∃ F, writeAppSnapshot allOkWrites [7] [] [9] [] = Except.ok F ∧
      tryReadAppSnapshotBlobs (fun _ _ => false) F 0 =
        ReadResult.ok ⟨presentOf [7], presentOf [], presentOf [9], presentOf []⟩ :=
  c1_blob_roundtrip [7] [] [9] [] (by decide) (by decide) (by decide) (by decide)
